import Mathlib

/-!
Verification of the bounded-integer macro (src/macro/src/lib.rs).

The macro generates, for a chosen primitive representation (`#[repr(i8)]`,
`#[repr(u16)]`, ...) and a range of values, a type with constants
`MIN_VALUE`, `MAX_VALUE`, `RANGE`, constructors `new`, `new_unchecked`,
`new_saturating`, `new_wrapping`, the query `in_range`, panicking arithmetic
operators, a `checked_*` family and a `saturating_*` family, plus (for enums)
a variant list, and it resolves enum range bounds with the small constant
evaluator `eval_expr`.

This file shallowly embeds that generated code.  Machine integers are
embedded as `Int` together with an explicit representability test for the
fixed-width representation; an operation of the generated code that panics
(debug overflow, division by zero, out-of-range `expect`) or returns `None`
is embedded as `Option.none`.  Rust `/` and `%` on primitives truncate
toward zero (`Int.tdiv`, `Int.tmod`); `div_euclid` and `rem_euclid` are
Euclidean (`Int.ediv` and `Int.emod`, written `/` and `%`, the default integer
division of Lean).
-/

set_option linter.unusedVariables false

/-- Fixed-width twos-complement primitive integer representation: the
`#[repr(..)]` attribute of the macro, reduced to signedness and bit width
(the source stores the path `i8`, `u16`, ... and the derived flag
`repr_unsigned`). -/
structure ReprKind where
  signed : Bool
  bits : Nat
deriving DecidableEq

namespace ReprKind

/-- Smallest representable value, `::core::primitive::<repr>::MIN`. -/
def minVal (r : ReprKind) : Int := if r.signed then -(2 ^ (r.bits - 1)) else 0

/-- Largest representable value, `::core::primitive::<repr>::MAX`. -/
def maxVal (r : ReprKind) : Int := if r.signed then 2 ^ (r.bits - 1) - 1 else 2 ^ r.bits - 1

/-- Whether the integer `n` is representable in the representation. -/
def inRepB (r : ReprKind) (n : Int) : Bool := decide (r.minVal ≤ n) && decide (n ≤ r.maxVal)

/-- Keeps a computed result when it is representable.  `none` embeds the
arithmetic-overflow panic of a primitive operation in a debug build, which is
the same condition under which the corresponding primitive `checked_*`
operation returns `None`: the mathematically exact result does not fit in the
fixed-width type. -/
def chk (r : ReprKind) (x : Int) : Option Int := if r.inRepB x then some x else none

/-- Primitive addition on the representation (`checked_add`, and the overflow
condition of the `+` operator). -/
def checked_add (r : ReprKind) (a b : Int) : Option Int := r.chk (a + b)

/-- Primitive subtraction on the representation. -/
def checked_sub (r : ReprKind) (a b : Int) : Option Int := r.chk (a - b)

/-- Primitive multiplication on the representation. -/
def checked_mul (r : ReprKind) (a b : Int) : Option Int := r.chk (a * b)

/-- Primitive negation on the representation.  For an unsigned type this
fails for every nonzero argument; for a signed type it fails exactly at
`MIN`. -/
def checked_neg (r : ReprKind) (a : Int) : Option Int := r.chk (-a)

/-- Primitive absolute value (signed representations).  Fails exactly at
`MIN`, whose negative is not representable. -/
def checked_abs (r : ReprKind) (a : Int) : Option Int := r.chk |a|

/-- Primitive exponentiation.  Rust computes it by squaring with a checked
multiply at every step; for representation-typed bases the composite fails
exactly when the exact power `a ^ e` is unrepresentable, which is what is
embedded here. -/
def checked_pow (r : ReprKind) (a : Int) (e : Nat) : Option Int := r.chk (a ^ e)

/-- Primitive division, truncating toward zero.  Fails on a zero divisor and
on overflow (`MIN / -1`, caught by the representability check). -/
def checked_div (r : ReprKind) (a b : Int) : Option Int :=
  if b = 0 then none else r.chk (a.tdiv b)

/-- Primitive remainder, sign of the dividend.  Fails on a zero divisor and
on the overflowing case `MIN % -1` (whose exact value 0 would be
representable, so that case is tested explicitly, as in Rust). -/
def checked_rem (r : ReprKind) (a b : Int) : Option Int :=
  if b = 0 then none
  else if a = r.minVal ∧ b = -1 then none
  else r.chk (a.tmod b)

/-- Primitive Euclidean division.  Fails on a zero divisor and on overflow
(`MIN.div_euclid(-1)`, caught by the representability check). -/
def checked_div_euclid (r : ReprKind) (a b : Int) : Option Int :=
  if b = 0 then none else r.chk (a / b)

/-- Primitive Euclidean remainder.  Fails on a zero divisor and on the
overflowing case `MIN.rem_euclid(-1)` (whose exact value 0 would be
representable, so that case is tested explicitly, as in Rust). -/
def checked_rem_euclid (r : ReprKind) (a b : Int) : Option Int :=
  if b = 0 then none
  else if a = r.minVal ∧ b = -1 then none
  else r.chk (a % b)

/-- Clamping of an exact result into the representation: the value of the
primitive `saturating_*` operations. -/
def clamp (r : ReprKind) (x : Int) : Int :=
  if x < r.minVal then r.minVal else if r.maxVal < x then r.maxVal else x

/-- Primitive saturating addition. -/
def saturating_add (r : ReprKind) (a b : Int) : Int := r.clamp (a + b)

/-- Primitive saturating subtraction. -/
def saturating_sub (r : ReprKind) (a b : Int) : Int := r.clamp (a - b)

/-- Primitive saturating multiplication. -/
def saturating_mul (r : ReprKind) (a b : Int) : Int := r.clamp (a * b)

/-- Primitive saturating negation (signed representations). -/
def saturating_neg (r : ReprKind) (a : Int) : Int := r.clamp (-a)

/-- Primitive saturating exponentiation. -/
def saturating_pow (r : ReprKind) (a : Int) (e : Nat) : Int := r.clamp (a ^ e)

end ReprKind

/-- The `i8` representation. -/
def i8 : ReprKind := ⟨true, 8⟩

/-- The `i16` representation. -/
def i16 : ReprKind := ⟨true, 16⟩

/-- The `u8` representation. -/
def u8 : ReprKind := ⟨false, 8⟩

/-- The `u16` representation. -/
def u16 : ReprKind := ⟨false, 16⟩

/-- Per-type configuration of one generated bounded integer: the
representation and the optional lower and upper bounds of the (normalized,
closed) range.  A struct-style range may omit either bound; an enum-style
range always has both.  An omitted bound defaults to the representation
extreme (`generate_consts`). -/
structure Config where
  rep : ReprKind
  lowBound : Option Int
  highBound : Option Int
deriving DecidableEq

namespace Config

/-- The constant `Self::MIN_VALUE` (`generate_consts`). -/
def MIN_VALUE (c : Config) : Int := c.lowBound.getD c.rep.minVal

/-- The constant `Self::MAX_VALUE` (`generate_consts`). -/
def MAX_VALUE (c : Config) : Int := c.highBound.getD c.rep.maxVal

/-- The constant `Self::RANGE = Self::MAX_VALUE - Self::MIN_VALUE + 1`
(`generate_consts`).  The subtraction and increment happen in the
representation; that they stay representable is a precondition on the
generator, expressed by `rangeOkB` below. -/
def RANGE (c : Config) : Int := c.MAX_VALUE - c.MIN_VALUE + 1

/-- The low-bound side of `in_range` (`generate_base`): literally `true` when
the struct range omitted its lower bound, otherwise `n >= Self::MIN_VALUE`. -/
def lowCheck (c : Config) (n : Int) : Bool :=
  match c.lowBound with
  | some _ => decide (c.MIN_VALUE ≤ n)
  | none => true

/-- The high-bound side of `in_range` (`generate_base`): literally `true`
when the struct range omitted its upper bound, otherwise
`n <= Self::MAX_VALUE`. -/
def highCheck (c : Config) (n : Int) : Bool :=
  match c.highBound with
  | some _ => decide (n ≤ c.MAX_VALUE)
  | none => true

/-- The generated `in_range` query. -/
def in_range (c : Config) (n : Int) : Bool := c.lowCheck n && c.highCheck n

/-- The generated `new` constructor: `Some` exactly when `in_range` holds,
storing the argument unchanged (`new_unchecked` stores the raw value). -/
def new (c : Config) (n : Int) : Option Int :=
  if c.in_range n then some n else none

/-- The generated `new_saturating` constructor: the low check runs first,
then the high check; `Self::MIN` and `Self::MAX` hold `MIN_VALUE` and
`MAX_VALUE`. -/
def new_saturating (c : Config) (n : Int) : Int :=
  if !(c.lowCheck n) then c.MIN_VALUE
  else if !(c.highCheck n) then c.MAX_VALUE
  else n

/-- The generated `new_wrapping` constructor, evaluated step for step in the
representation as the source writes it:
`(n + (RANGE - MIN_VALUE.rem_euclid(RANGE))).rem_euclid(RANGE) + MIN_VALUE`,
passed to `new_unchecked` without a further range check.  Every intermediate
primitive operation can panic, which `none` embeds. -/
def new_wrapping (c : Config) (n : Int) : Option Int :=
  (c.rep.checked_rem_euclid c.MIN_VALUE c.RANGE).bind fun a =>
  (c.rep.checked_sub c.RANGE a).bind fun b =>
  (c.rep.checked_add n b).bind fun s =>
  (c.rep.checked_rem_euclid s c.RANGE).bind fun d =>
  c.rep.checked_add d c.MIN_VALUE

/-- The offset `RANGE - MIN_VALUE.rem_euclid(RANGE)` added to the argument
inside the `new_wrapping` formula. -/
def wrapOffset (c : Config) : Int := c.RANGE - c.MIN_VALUE % c.RANGE

/-- Validity of the bound configuration: both bounds representable and
ordered.  This is the precondition the generator places on a declared
range. -/
def boundsOkB (c : Config) : Bool :=
  c.rep.inRepB c.MIN_VALUE && c.rep.inRepB c.MAX_VALUE && decide (c.MIN_VALUE ≤ c.MAX_VALUE)

/-- Representability of the `RANGE` constant, the further precondition used
by `new_wrapping` (its constant evaluation would otherwise abort
compilation). -/
def rangeOkB (c : Config) : Bool := c.rep.inRepB c.RANGE

/-- Whether a stored value satisfies the advertised bounded-range
invariant. -/
def inBounds (c : Config) (v : Int) : Prop := c.MIN_VALUE ≤ v ∧ v ≤ c.MAX_VALUE

/-- The generated `checked_add` (`generate_checked_operators`):
`self.get().checked_add(rhs).and_then(Self::new)`.  The same composition
also embeds the panicking `Add` operator and its compound assignment, whose
overflow panic and out-of-range `expect` panic coincide with the two `none`
cases. -/
def checked_add (c : Config) (a b : Int) : Option Int :=
  (c.rep.checked_add a b).bind c.new

/-- The generated `checked_sub`, also embedding the panicking `Sub` operator
and its compound assignment. -/
def checked_sub (c : Config) (a b : Int) : Option Int :=
  (c.rep.checked_sub a b).bind c.new

/-- The generated `checked_mul`, also embedding the panicking `Mul` operator
and its compound assignment. -/
def checked_mul (c : Config) (a b : Int) : Option Int :=
  (c.rep.checked_mul a b).bind c.new

/-- The generated `checked_div`, also embedding the panicking `Div` operator
and its compound assignment. -/
def checked_div (c : Config) (a b : Int) : Option Int :=
  (c.rep.checked_div a b).bind c.new

/-- The generated `checked_div_euclid`, also embedding the panicking
`div_euclid` method (`generate_operators`). -/
def checked_div_euclid (c : Config) (a b : Int) : Option Int :=
  (c.rep.checked_div_euclid a b).bind c.new

/-- The generated `checked_rem`, also embedding the panicking `Rem` operator
and its compound assignment. -/
def checked_rem (c : Config) (a b : Int) : Option Int :=
  (c.rep.checked_rem a b).bind c.new

/-- The generated `checked_rem_euclid`, also embedding the panicking
`rem_euclid` method (`generate_operators`). -/
def checked_rem_euclid (c : Config) (a b : Int) : Option Int :=
  (c.rep.checked_rem_euclid a b).bind c.new

/-- The generated `checked_neg`, also embedding the panicking `Neg` operator
(generated for signed representations only; the checked form is generated
for unsigned representations as well). -/
def checked_neg (c : Config) (a : Int) : Option Int :=
  (c.rep.checked_neg a).bind c.new

/-- The generated `checked_abs`, also embedding the panicking `abs` method
(both signed-only). -/
def checked_abs (c : Config) (a : Int) : Option Int :=
  (c.rep.checked_abs a).bind c.new

/-- The generated `checked_pow`, also embedding the panicking `pow`
method. -/
def checked_pow (c : Config) (a : Int) (e : Nat) : Option Int :=
  (c.rep.checked_pow a e).bind c.new

/-- The generated `saturating_add`:
`Self::new_saturating(self.get().saturating_add(rhs))`. -/
def saturating_add (c : Config) (a b : Int) : Int :=
  c.new_saturating (c.rep.saturating_add a b)

/-- The generated `saturating_sub`. -/
def saturating_sub (c : Config) (a b : Int) : Int :=
  c.new_saturating (c.rep.saturating_sub a b)

/-- The generated `saturating_mul`. -/
def saturating_mul (c : Config) (a b : Int) : Int :=
  c.new_saturating (c.rep.saturating_mul a b)

/-- The generated `saturating_neg` (signed representations only). -/
def saturating_neg (c : Config) (a : Int) : Int :=
  c.new_saturating (c.rep.saturating_neg a)

/-- The generated `saturating_pow`. -/
def saturating_pow (c : Config) (a : Int) (e : Nat) : Int :=
  c.new_saturating (c.rep.saturating_pow a e)

end Config

/-- The `isize` accumulator of the bounds evaluator, taken at pointer width
64: its smallest value. -/
def isizeMin : Int := -(2 ^ 63)

/-- Largest `isize` value at pointer width 64. -/
def isizeMax : Int := 2 ^ 63 - 1

/-- Representability in `isize`. -/
def isizeOk (n : Int) : Bool := decide (isizeMin ≤ n) && decide (n ≤ isizeMax)

/-- The expression grammar seen by `eval_expr`, after `syn` parsing: one
constructor per arm the source matches on.  `lit` holds the digits of an
integer literal token (always nonnegative; negative constants arrive as
`neg`).  `litOther` stands for a non-integer literal, `unOther e` for a
unary expression with an operator other than `!` and `-` (such as `*e`),
`binOther` for a binary expression whose operator the evaluator does not
support, and `other` for any other expression kind (identifiers, calls,
...), carrying its source text. -/
inductive EExpr where
  | lit : Nat → EExpr
  | litOther : EExpr
  | neg : EExpr → EExpr
  | bnot : EExpr → EExpr
  | add : EExpr → EExpr → EExpr
  | sub : EExpr → EExpr → EExpr
  | mul : EExpr → EExpr → EExpr
  | div : EExpr → EExpr → EExpr
  | rem : EExpr → EExpr → EExpr
  | bitXor : EExpr → EExpr → EExpr
  | bitAnd : EExpr → EExpr → EExpr
  | bitOr : EExpr → EExpr → EExpr
  | paren : EExpr → EExpr
  | unOther : EExpr → EExpr
  | binOther : EExpr → EExpr → EExpr
  | other : String → EExpr
deriving DecidableEq

/-- How an evaluation can fail: `spanned msg e` is a returned
`syn::Error::new_spanned(e, msg)`, a position-aware error result attached to
the offending construct `e`; `panicked msg` is a Rust runtime panic inside
the evaluator (division by zero, arithmetic overflow of the `isize`
accumulator), which aborts macro expansion without producing an error
value. -/
inductive EvalError where
  | spanned : String → EExpr → EvalError
  | panicked : String → EvalError
deriving DecidableEq

deriving instance DecidableEq for Except

/-- Recognizes a returned (position-aware) error as opposed to a success or
a panic. -/
def isSpannedErr : Except EvalError Int → Bool
  | .error (.spanned _ _) => true
  | _ => false

/-- The 64-bit twos-complement bit pattern of an `isize` value. -/
def toTwos (n : Int) : Nat := (n % (2 ^ 64)).toNat

/-- The `isize` value of a 64-bit twos-complement bit pattern. -/
def fromTwos (n : Nat) : Int := if n < 2 ^ 63 then (n : Int) else (n : Int) - 2 ^ 64

/-- Bitwise XOR on `isize`. -/
def ixor (a b : Int) : Int := fromTwos (Nat.xor (toTwos a) (toTwos b))

/-- Bitwise AND on `isize`. -/
def iand (a b : Int) : Int := fromTwos (Nat.land (toTwos a) (toTwos b))

/-- Bitwise OR on `isize`. -/
def ior (a b : Int) : Int := fromTwos (Nat.lor (toTwos a) (toTwos b))

/-- Guards an `isize` arithmetic step: a result outside the accumulator
width is a debug-build overflow panic. -/
def isizeChk (msg : String) (n : Int) : Except EvalError Int :=
  if isizeOk n then .ok n else .error (.panicked msg)

/-- The bounds evaluator `eval_expr`.  Literals parse into the `isize`
accumulator; `!` and `-` and the eight supported binary operators evaluate
recursively (operands first, exactly as the source destructures before
matching on the operator); everything else is rejected with a spanned error
whose message is the one in the source.  Division and remainder use native
truncating semantics and panic on a zero divisor; overflow of the `isize`
accumulator panics. -/
def eval_expr : EExpr → Except EvalError Int
  | .lit n =>
      if (n : Int) ≤ isizeMax then .ok (n : Int)
      else .error (.spanned ("number too large to fit in target type") (.lit n))
  | .litOther => .error (.spanned ("literal must be integer") .litOther)
  | .neg e => do
      let v ← eval_expr e
      isizeChk ("attempt to negate with overflow") (-v)
  | .bnot e => do
      let v ← eval_expr e
      .ok (-v - 1)
  | .add e₁ e₂ => do
      let l ← eval_expr e₁
      let r ← eval_expr e₂
      isizeChk ("attempt to add with overflow") (l + r)
  | .sub e₁ e₂ => do
      let l ← eval_expr e₁
      let r ← eval_expr e₂
      isizeChk ("attempt to subtract with overflow") (l - r)
  | .mul e₁ e₂ => do
      let l ← eval_expr e₁
      let r ← eval_expr e₂
      isizeChk ("attempt to multiply with overflow") (l * r)
  | .div e₁ e₂ => do
      let l ← eval_expr e₁
      let r ← eval_expr e₂
      if r = 0 then .error (.panicked ("attempt to divide by zero"))
      else isizeChk ("attempt to divide with overflow") (l.tdiv r)
  | .rem e₁ e₂ => do
      let l ← eval_expr e₁
      let r ← eval_expr e₂
      if r = 0 then .error (.panicked ("attempt to calculate the remainder with a divisor of zero"))
      else if l = isizeMin ∧ r = -1 then
        .error (.panicked ("attempt to calculate the remainder with overflow"))
      else .ok (l.tmod r)
  | .bitXor e₁ e₂ => do
      let l ← eval_expr e₁
      let r ← eval_expr e₂
      .ok (ixor l r)
  | .bitAnd e₁ e₂ => do
      let l ← eval_expr e₁
      let r ← eval_expr e₂
      .ok (iand l r)
  | .bitOr e₁ e₂ => do
      let l ← eval_expr e₁
      let r ← eval_expr e₂
      .ok (ior l r)
  | .paren e => eval_expr e
  | .unOther e => do
      let _ ← eval_expr e
      .error (.spanned ("unary operator must be ! or -") (.unOther e))
  | .binOther e₁ e₂ => do
      let _ ← eval_expr e₁
      let _ ← eval_expr e₂
      .error (.spanned ("operator not supported in this context") (.binOther e₁ e₂))
  | .other s => .error (.spanned ("expected simple expression") (.other s))

/-- The variant-naming function `enum_variant`: `N` plus the absolute value
for a negative integer, `Z0` for zero, `P` plus the value for a positive
integer. -/
def enum_variant (i : Int) : String :=
  if i < 0 then ("N") ++ toString i.natAbs
  else if i = 0 then ("Z0")
  else ("P") ++ toString i

/-- Ascending iteration of `lo..=hi` as the `RangeInclusive<isize>` iterator
produces it, driven by the element count. -/
def rangeFrom (lo : Int) : Nat → List Int
  | 0 => []
  | n + 1 => lo :: rangeFrom (lo + 1) n

/-- The integers of the closed enum range `lo..=hi`, in ascending order. -/
def enumRange (lo hi : Int) : List Int := rangeFrom lo (hi + 1 - lo).toNat

/-- The variant list as `generate_item` emits it: the name of each integer
of the range in order, the first with the explicit discriminant
`= range.start()`, every later one bare. -/
def emittedEnumItems (lo hi : Int) : List (String × Option Int) :=
  match enumRange lo hi with
  | [] => []
  | x :: xs => (enum_variant x, some lo) :: xs.map fun i => (enum_variant i, none)

/-- Rust enum discriminant assignment: an explicit discriminant takes its
value, a bare variant takes the previous discriminant plus one (zero at the
start). -/
def assignDiscriminants : Int → List (String × Option Int) → List (String × Int)
  | _, [] => []
  | _, (n, some v) :: rest => (n, v) :: assignDiscriminants (v + 1) rest
  | next, (n, none) :: rest => (n, next) :: assignDiscriminants (next + 1) rest

/-- The emitted enum of `lo..=hi`, with the representation value Rust assigns
to each variant. -/
def enumVariantList (lo hi : Int) : List (String × Int) :=
  assignDiscriminants 0 (emittedEnumItems lo hi)

/-- The `on_unsigned` column of the `CHECKED_OPERATORS` table. -/
inductive CheckedOnUnsigned where
  | all
  | noSaturating
  | excluded
deriving DecidableEq, BEq

/-- One row of the `CHECKED_OPERATORS` table. -/
structure CheckedOperator where
  name : String
  sat : Bool
  on_unsigned : CheckedOnUnsigned
deriving DecidableEq

/-- The `CHECKED_OPERATORS` table of the source (descriptions and rhs types
omitted: they do not decide which methods exist). -/
def CHECKED_OPERATORS : List CheckedOperator :=
  [⟨("add"), true, .all⟩,
   ⟨("sub"), true, .all⟩,
   ⟨("mul"), true, .all⟩,
   ⟨("div"), false, .all⟩,
   ⟨("div_euclid"), false, .all⟩,
   ⟨("rem"), false, .all⟩,
   ⟨("rem_euclid"), false, .all⟩,
   ⟨("neg"), true, .noSaturating⟩,
   ⟨("abs"), true, .excluded⟩,
   ⟨("pow"), true, .all⟩]

/-- The `checked_*` methods `generate_checked_operators` emits for a
representation: a row is skipped only when the representation is unsigned
and the row is marked `None`. -/
def generatedCheckedMethods (repr_unsigned : Bool) : List String :=
  (CHECKED_OPERATORS.filter fun op =>
    !(repr_unsigned && op.on_unsigned == .excluded)).map fun op => ("checked_") ++ op.name

/-- The `saturating_*` methods `generate_checked_operators` emits: a row is
skipped when the representation is unsigned and the row is marked `None` or
`NoSaturating`, and otherwise emitted exactly when its `saturating` flag is
set. -/
def generatedSaturatingMethods (repr_unsigned : Bool) : List String :=
  (CHECKED_OPERATORS.filter fun op =>
    !(repr_unsigned && op.on_unsigned == .excluded) &&
    !(repr_unsigned && op.on_unsigned == .noSaturating) &&
    op.sat).map fun op => ("saturating_") ++ op.name

/-- One row of the `OPERATORS` table (`generate_ops_traits`). -/
structure Operator where
  trait_name : String
  on_unsigned : Bool
deriving DecidableEq

/-- The `OPERATORS` table of the source. -/
def OPERATORS : List Operator :=
  [⟨("Add"), true⟩, ⟨("Sub"), true⟩, ⟨("Mul"), true⟩,
   ⟨("Div"), true⟩, ⟨("Rem"), true⟩, ⟨("Neg"), false⟩]

/-- The operator traits `generate_ops_traits` implements for a
representation: rows whose `on_unsigned` flag is off are skipped for
unsigned representations. -/
def generatedOpTraits (repr_unsigned : Bool) : List String :=
  (OPERATORS.filter fun op => !(repr_unsigned && !op.on_unsigned)).map Operator.trait_name

/-- The plain methods `generate_operators` emits: `abs` only for signed
representations, then `pow`, `div_euclid` and `rem_euclid` always. -/
def generatedPlainMethods (repr_unsigned : Bool) : List String :=
  (if repr_unsigned then [] else [("abs")]) ++ [("pow"), ("div_euclid"), ("rem_euclid")]

/-- The two shapes of a range expression (`syn::RangeLimits`). -/
inductive RangeLimits where
  | halfOpen
  | closed
deriving DecidableEq

/-- The struct-path normalization of a half-open upper bound as the source
performs it: `Expr::Verbatim(quote!(#to - 1))` concatenates the tokens of
the original upper expression with `- 1`, and the emitted `MAX_VALUE`
constant is later re-parsed from exactly those tokens by Rust operator
precedence.  Subtraction binds tighter than the bitwise operators, so when
the top-level operator of the upper expression is `^`, `&` or `|` the
appended `- 1` attaches to that operator's right operand rather than to the
whole expression; for the other heads of the evaluator grammar (whose
top-level operator binds at least as tightly as subtraction, or which are
atoms or parenthesized) it is a subtraction from the whole expression. -/
def pasteMinusOne : EExpr → EExpr
  | .bitXor a b => .bitXor a (pasteMinusOne b)
  | .bitAnd a b => .bitAnd a (pasteMinusOne b)
  | .bitOr a b => .bitOr a (pasteMinusOne b)
  | e => .sub e (.lit 1)

/-- Modelled from the spec: the claimed normalization of a half-open upper
bound, wrapping the unevaluated upper expression `b` as `(b) - 1`. -/
def specWrapMinusOne (e : EExpr) : EExpr := .sub (.paren e) (.lit 1)

/-- The upper bound expression a struct-style range stores (`Parse for
BoundedInteger`, struct arm): the original expression for a closed range,
the token paste for a half-open one. -/
def structUpper (e : EExpr) : RangeLimits → EExpr
  | .halfOpen => pasteMinusOne e
  | .closed => e

/-- The closed integer range the enum path of `Parse for BoundedInteger`
resolves: both bound expressions go through `eval_expr` (lower first), and
for a half-open range one is subtracted from the evaluated upper bound by a
plain `isize` subtraction (`to - 1` in the source, a debug-checked machine
subtraction, not a rewrite of the expression). -/
def enumResolvedRange (lo hi : EExpr) (lim : RangeLimits) : Except EvalError (Int × Int) := do
  let f ← eval_expr lo
  let t ← eval_expr hi
  match lim with
  | .halfOpen => do
      let t1 ← isizeChk ("attempt to subtract with overflow") (t - 1)
      .ok (f, t1)
  | .closed => .ok (f, t)

/-- Modelled from the spec: resolving an enum range by wrapping the upper
expression syntactically as `(b) - 1` before evaluation. -/
def enumResolvedRangeSyntactic (lo hi : EExpr) (lim : RangeLimits) : Except EvalError (Int × Int) := do
  let f ← eval_expr lo
  let t ← eval_expr (match lim with
    | .halfOpen => specWrapMinusOne hi
    | .closed => hi)
  .ok (f, t)

/-- Scenario A of the spec: `#[repr(i8)] struct S { -3..2 }`, normalized to
the closed bounds `-3` and `1`. -/
def cfgA : Config := ⟨i8, some (-3), some 1⟩

/-- Scenario B of the spec: `#[repr(u16)]` with range `3..=7`. -/
def cfgB : Config := ⟨u16, some 3, some 7⟩

/-- A valid `u8` configuration with range `0..=200` on which the
`new_wrapping` formula overflows the representation for in-range inputs. -/
def cfgW : Config := ⟨u8, some 0, some 200⟩

namespace ReprKind

theorem minVal_nonpos (r : ReprKind) : r.minVal ≤ 0 := by
  unfold minVal
  split
  · have h : (0 : Int) < 2 ^ (r.bits - 1) := by positivity
    omega
  · omega

theorem maxVal_nonneg (r : ReprKind) : 0 ≤ r.maxVal := by
  unfold maxVal
  split
  · have h : (0 : Int) < 2 ^ (r.bits - 1) := by positivity
    omega
  · have h : (0 : Int) < 2 ^ r.bits := by positivity
    omega

theorem min_le_max (r : ReprKind) : r.minVal ≤ r.maxVal :=
  le_trans r.minVal_nonpos r.maxVal_nonneg

theorem inRepB_iff (r : ReprKind) (n : Int) :
    r.inRepB n = true ↔ r.minVal ≤ n ∧ n ≤ r.maxVal := by
  simp [inRepB]

theorem chk_some (r : ReprKind) (x y : Int) :
    r.chk x = some y ↔ r.inRepB x = true ∧ y = x := by
  unfold chk
  split
  · next hx =>
      constructor
      · intro h
        exact ⟨hx, (Option.some_inj.mp h).symm⟩
      · rintro ⟨-, rfl⟩
        rfl
  · next hx =>
      constructor
      · intro h
        exact absurd h (by simp)
      · rintro ⟨h1, -⟩
        exact absurd h1 hx

theorem chk_inRep (r : ReprKind) (x y : Int) (h : r.chk x = some y) :
    r.inRepB y = true := by
  obtain ⟨h1, h2⟩ := (r.chk_some x y).mp h
  exact h2 ▸ h1

theorem checked_add_inRep (r : ReprKind) (a b y : Int) (h : r.checked_add a b = some y) :
    r.inRepB y = true := r.chk_inRep _ _ h

theorem checked_sub_inRep (r : ReprKind) (a b y : Int) (h : r.checked_sub a b = some y) :
    r.inRepB y = true := r.chk_inRep _ _ h

theorem checked_mul_inRep (r : ReprKind) (a b y : Int) (h : r.checked_mul a b = some y) :
    r.inRepB y = true := r.chk_inRep _ _ h

theorem checked_neg_inRep (r : ReprKind) (a y : Int) (h : r.checked_neg a = some y) :
    r.inRepB y = true := r.chk_inRep _ _ h

theorem checked_abs_inRep (r : ReprKind) (a y : Int) (h : r.checked_abs a = some y) :
    r.inRepB y = true := r.chk_inRep _ _ h

theorem checked_pow_inRep (r : ReprKind) (a : Int) (e : Nat) (y : Int)
    (h : r.checked_pow a e = some y) : r.inRepB y = true := r.chk_inRep _ _ h

theorem checked_div_inRep (r : ReprKind) (a b y : Int) (h : r.checked_div a b = some y) :
    r.inRepB y = true := by
  unfold checked_div at h
  split at h
  · exact absurd h (by simp)
  · exact r.chk_inRep _ _ h

theorem checked_rem_inRep (r : ReprKind) (a b y : Int) (h : r.checked_rem a b = some y) :
    r.inRepB y = true := by
  unfold checked_rem at h
  split at h
  · exact absurd h (by simp)
  · split at h
    · exact absurd h (by simp)
    · exact r.chk_inRep _ _ h

theorem checked_div_euclid_inRep (r : ReprKind) (a b y : Int)
    (h : r.checked_div_euclid a b = some y) : r.inRepB y = true := by
  unfold checked_div_euclid at h
  split at h
  · exact absurd h (by simp)
  · exact r.chk_inRep _ _ h

theorem checked_rem_euclid_inRep (r : ReprKind) (a b y : Int)
    (h : r.checked_rem_euclid a b = some y) : r.inRepB y = true := by
  unfold checked_rem_euclid at h
  split at h
  · exact absurd h (by simp)
  · split at h
    · exact absurd h (by simp)
    · exact r.chk_inRep _ _ h

theorem clamp_inRep (r : ReprKind) (x : Int) : r.inRepB (r.clamp x) = true := by
  rw [r.inRepB_iff]
  have h := r.min_le_max
  unfold clamp
  split_ifs <;> omega

theorem checked_rem_euclid_some (r : ReprKind) (a b y : Int)
    (h : r.checked_rem_euclid a b = some y) : b ≠ 0 ∧ y = a % b := by
  unfold checked_rem_euclid at h
  split at h
  · exact absurd h (by simp)
  · split at h
    · exact absurd h (by simp)
    · next hb _ => exact ⟨hb, ((r.chk_some _ _).mp h).2⟩

theorem checked_sub_some (r : ReprKind) (a b y : Int) (h : r.checked_sub a b = some y) :
    y = a - b := ((r.chk_some _ _).mp h).2

theorem checked_add_some (r : ReprKind) (a b y : Int) (h : r.checked_add a b = some y) :
    y = a + b := ((r.chk_some _ _).mp h).2

end ReprKind

namespace Config

theorem lowCheck_iff (c : Config) (n : Int) (hn : c.rep.inRepB n = true) :
    c.lowCheck n = true ↔ c.MIN_VALUE ≤ n := by
  obtain ⟨h1, h2⟩ := (c.rep.inRepB_iff n).mp hn
  rcases hl : c.lowBound with _ | m <;>
    simp [lowCheck, MIN_VALUE, hl, Option.getD] <;> omega

theorem highCheck_iff (c : Config) (n : Int) (hn : c.rep.inRepB n = true) :
    c.highCheck n = true ↔ n ≤ c.MAX_VALUE := by
  obtain ⟨h1, h2⟩ := (c.rep.inRepB_iff n).mp hn
  rcases hh : c.highBound with _ | m <;>
    simp [highCheck, MAX_VALUE, hh, Option.getD] <;> omega

theorem in_range_iff (c : Config) (n : Int) (hn : c.rep.inRepB n = true) :
    c.in_range n = true ↔ c.MIN_VALUE ≤ n ∧ n ≤ c.MAX_VALUE := by
  simp [in_range, Bool.and_eq_true, c.lowCheck_iff n hn, c.highCheck_iff n hn]

theorem inBounds_of_in_range (c : Config) (n : Int) (hn : c.rep.inRepB n = true)
    (h : c.in_range n = true) : c.inBounds n := (c.in_range_iff n hn).mp h

theorem new_some (c : Config) (n v : Int) :
    c.new n = some v ↔ c.in_range n = true ∧ v = n := by
  unfold new
  split
  · next hx =>
      constructor
      · intro h
        exact ⟨hx, (Option.some_inj.mp h).symm⟩
      · rintro ⟨-, rfl⟩
        rfl
  · next hx =>
      constructor
      · intro h
        exact absurd h (by simp)
      · rintro ⟨h1, -⟩
        exact absurd h1 hx

theorem bind_new_some (c : Config) (o : Option Int) (v : Int) :
    o.bind c.new = some v ↔ o = some v ∧ c.in_range v = true := by
  cases o with
  | none => simp
  | some x =>
      simp only [Option.some_bind, c.new_some x v, Option.some_inj]
      constructor
      · rintro ⟨h1, rfl⟩
        exact ⟨rfl, h1⟩
      · rintro ⟨rfl, h1⟩
        exact ⟨h1, rfl⟩

theorem bind_new_inB (c : Config) (o : Option Int)
    (hrep : ∀ y, o = some y → c.rep.inRepB y = true) (v : Int)
    (h : o.bind c.new = some v) : c.inBounds v := by
  rw [c.bind_new_some] at h
  exact c.inBounds_of_in_range v (hrep v h.1) h.2

theorem boundsOk_iff (c : Config) :
    c.boundsOkB = true ↔
      c.rep.inRepB c.MIN_VALUE = true ∧ c.rep.inRepB c.MAX_VALUE = true ∧
        c.MIN_VALUE ≤ c.MAX_VALUE := by
  simp [boundsOkB, Bool.and_eq_true, and_assoc]

theorem new_saturating_inB (c : Config) (hb : c.boundsOkB = true) (n : Int)
    (hn : c.rep.inRepB n = true) : c.inBounds (c.new_saturating n) := by
  obtain ⟨hmin, hmax, hle⟩ := c.boundsOk_iff.mp hb
  unfold new_saturating
  rcases hlc : c.lowCheck n with _ | _
  · exact ⟨le_refl _, hle⟩
  · rcases hhc : c.highCheck n with _ | _
    · simp only [hlc, hhc, Bool.not_true, Bool.not_false, if_false, if_true]
      exact ⟨hle, le_refl _⟩
    · simp only [hlc, hhc, Bool.not_true, Bool.not_false, if_false, if_true]
      exact c.inBounds_of_in_range n hn (by simp [in_range, hlc, hhc])

end Config

/-- Arithmetic heart of the wrapping formula: adding the offset
`RANGE - MIN_VALUE mod RANGE` and reducing is the same as reducing the
distance from `MIN_VALUE`. -/
theorem emod_shift (n M R : Int) : (n + (R - M % R)) % R = (n - M) % R := by
  have h : n + (R - M % R) = (n - M % R) + R := by ring
  rw [h, Int.add_emod_self, Int.sub_emod n (M % R) R, Int.emod_emod_of_dvd M dvd_rfl,
    ← Int.sub_emod]

namespace Config

theorem range_pos (c : Config) (hb : c.boundsOkB = true) : 0 < c.RANGE := by
  obtain ⟨-, -, hle⟩ := c.boundsOk_iff.mp hb
  unfold RANGE
  omega

/-- Step-for-step value of `new_wrapping`: with a valid configuration and a
representable argument, every intermediate operation except the central
addition is overflow-free, so the result is the centered modulo exactly when
`n + (RANGE - MIN_VALUE mod RANGE)` is representable, and a panic (`none`)
otherwise. -/
theorem wrap_eval (c : Config) (hb : c.boundsOkB = true) (hr : c.rangeOkB = true)
    (n : Int) (hn : c.rep.inRepB n = true) :
    c.new_wrapping n =
      if c.rep.inRepB (n + c.wrapOffset) = true then
        some ((n - c.MIN_VALUE) % c.RANGE + c.MIN_VALUE)
      else none := by
  obtain ⟨hmin, hmax, hle⟩ := c.boundsOk_iff.mp hb
  obtain ⟨hmin1, hmin2⟩ := (c.rep.inRepB_iff c.MIN_VALUE).mp hmin
  obtain ⟨hmax1, hmax2⟩ := (c.rep.inRepB_iff c.MAX_VALUE).mp hmax
  obtain ⟨hR1, hR2⟩ := (c.rep.inRepB_iff c.RANGE).mp hr
  obtain ⟨hn1, hn2⟩ := (c.rep.inRepB_iff n).mp hn
  have hmnp := c.rep.minVal_nonpos
  have hmxn := c.rep.maxVal_nonneg
  have hRpos : 0 < c.RANGE := c.range_pos hb
  have hRnz : c.RANGE ≠ 0 := ne_of_gt hRpos
  have hRmax : c.MIN_VALUE + c.RANGE - 1 = c.MAX_VALUE := by unfold RANGE; ring
  have hm0 : 0 ≤ c.MIN_VALUE % c.RANGE := Int.emod_nonneg _ hRnz
  have hm1 : c.MIN_VALUE % c.RANGE < c.RANGE := Int.emod_lt_of_pos _ hRpos
  have ha : c.rep.checked_rem_euclid c.MIN_VALUE c.RANGE = some (c.MIN_VALUE % c.RANGE) := by
    unfold ReprKind.checked_rem_euclid
    rw [if_neg hRnz, if_neg (by omega : ¬(c.MIN_VALUE = c.rep.minVal ∧ c.RANGE = -1))]
    unfold ReprKind.chk
    rw [if_pos ((c.rep.inRepB_iff _).mpr (by omega))]
  have hbstep : c.rep.checked_sub c.RANGE (c.MIN_VALUE % c.RANGE) = some c.wrapOffset := by
    unfold ReprKind.checked_sub ReprKind.chk wrapOffset
    rw [if_pos ((c.rep.inRepB_iff _).mpr (by omega))]
  unfold new_wrapping
  rw [ha, Option.some_bind, hbstep, Option.some_bind]
  by_cases hcase : c.rep.inRepB (n + c.wrapOffset) = true
  · rw [if_pos hcase]
    have hc : c.rep.checked_add n c.wrapOffset = some (n + c.wrapOffset) := by
      unfold ReprKind.checked_add ReprKind.chk
      rw [if_pos hcase]
    obtain ⟨hs1, hs2⟩ := (c.rep.inRepB_iff (n + c.wrapOffset)).mp hcase
    have hd0 : 0 ≤ (n + c.wrapOffset) % c.RANGE := Int.emod_nonneg _ hRnz
    have hd1 : (n + c.wrapOffset) % c.RANGE < c.RANGE := Int.emod_lt_of_pos _ hRpos
    have hd : c.rep.checked_rem_euclid (n + c.wrapOffset) c.RANGE =
        some ((n + c.wrapOffset) % c.RANGE) := by
      unfold ReprKind.checked_rem_euclid
      rw [if_neg hRnz, if_neg (by omega : ¬(n + c.wrapOffset = c.rep.minVal ∧ c.RANGE = -1))]
      unfold ReprKind.chk
      rw [if_pos ((c.rep.inRepB_iff _).mpr (by omega))]
    have he : c.rep.checked_add ((n + c.wrapOffset) % c.RANGE) c.MIN_VALUE =
        some ((n + c.wrapOffset) % c.RANGE + c.MIN_VALUE) := by
      unfold ReprKind.checked_add ReprKind.chk
      rw [if_pos ((c.rep.inRepB_iff _).mpr (by omega))]
    rw [hc, Option.some_bind, hd, Option.some_bind, he]
    have hshift : (n + c.wrapOffset) % c.RANGE = (n - c.MIN_VALUE) % c.RANGE := by
      unfold wrapOffset
      exact emod_shift n c.MIN_VALUE c.RANGE
    rw [hshift]
  · rw [if_neg hcase]
    have hc : c.rep.checked_add n c.wrapOffset = none := by
      unfold ReprKind.checked_add ReprKind.chk
      rw [if_neg hcase]
    rw [hc, Option.none_bind]

/-- The centered-modulo value lies between the bounds. -/
theorem wrap_formula_inB (c : Config) (hb : c.boundsOkB = true) (n : Int) :
    c.inBounds ((n - c.MIN_VALUE) % c.RANGE + c.MIN_VALUE) := by
  have hRpos : 0 < c.RANGE := c.range_pos hb
  have h0 : 0 ≤ (n - c.MIN_VALUE) % c.RANGE := Int.emod_nonneg _ (ne_of_gt hRpos)
  have h1 : (n - c.MIN_VALUE) % c.RANGE < c.RANGE := Int.emod_lt_of_pos _ hRpos
  have hR : c.RANGE = c.MAX_VALUE - c.MIN_VALUE + 1 := rfl
  exact ⟨by omega, by omega⟩

/-- Whenever `new_wrapping` returns at all, its value is in bounds (this
needs only the validity of the bounds, not representability of `RANGE`). -/
theorem wrap_some_inB (c : Config) (hb : c.boundsOkB = true) (n : Int) :
    ∀ v, c.new_wrapping n = some v → c.inBounds v := by
  intro v h
  have hRpos : 0 < c.RANGE := c.range_pos hb
  unfold new_wrapping at h
  rw [Option.bind_eq_some] at h
  obtain ⟨a, ha, h⟩ := h
  rw [Option.bind_eq_some] at h
  obtain ⟨b, hbs, h⟩ := h
  rw [Option.bind_eq_some] at h
  obtain ⟨s, hs, h⟩ := h
  rw [Option.bind_eq_some] at h
  obtain ⟨d, hd, h⟩ := h
  obtain ⟨-, hdval⟩ := c.rep.checked_rem_euclid_some _ _ _ hd
  have hv : v = d + c.MIN_VALUE := c.rep.checked_add_some _ _ _ h
  have hd0 : 0 ≤ s % c.RANGE := Int.emod_nonneg _ (ne_of_gt hRpos)
  have hd1 : s % c.RANGE < c.RANGE := Int.emod_lt_of_pos _ hRpos
  have hR : c.RANGE = c.MAX_VALUE - c.MIN_VALUE + 1 := rfl
  subst hdval hv
  exact ⟨by omega, by omega⟩

end Config

/-- Discriminant assignment of a run of bare variants starting at the
counter value of its first element. -/
theorem assign_rangeFrom (n : Nat) : ∀ b : Int,
    assignDiscriminants b ((rangeFrom b n).map fun i => (enum_variant i, none)) =
      (rangeFrom b n).map fun i => (enum_variant i, i) := by
  induction n with
  | zero => intro b; rfl
  | succ n ih =>
      intro b
      simp only [rangeFrom, List.map_cons, assignDiscriminants]
      rw [ih (b + 1)]

/-- The emitted enum of `lo..=hi` carries, after Rust discriminant
assignment, exactly the integers of the range in order, each named by
`enum_variant`. -/
theorem enumVariantList_eq (lo hi : Int) :
    enumVariantList lo hi = (enumRange lo hi).map fun i => (enum_variant i, i) := by
  unfold enumVariantList emittedEnumItems enumRange
  cases hn : (hi + 1 - lo).toNat with
  | zero => rfl
  | succ n =>
      simp only [rangeFrom, List.map_cons, assignDiscriminants]
      rw [assign_rangeFrom n (lo + 1)]

namespace Config

theorem lowCheck_false_of (c : Config) (n : Int) (hn : c.rep.inRepB n = true)
    (h : n < c.MIN_VALUE) : c.lowCheck n = false := by
  rcases hl : c.lowCheck n
  · rfl
  · exact absurd ((c.lowCheck_iff n hn).mp hl) (by omega)

theorem highCheck_false_of (c : Config) (n : Int) (hn : c.rep.inRepB n = true)
    (h : c.MAX_VALUE < n) : c.highCheck n = false := by
  rcases hh : c.highCheck n
  · rfl
  · exact absurd ((c.highCheck_iff n hn).mp hh) (by omega)

end Config

/-- Claim C3: for every representation value `n`, `in_range n` holds exactly
when `MIN_VALUE ≤ n ≤ MAX_VALUE` (a side whose bound was omitted is
trivially true, and its default `MIN_VALUE`/`MAX_VALUE` is the
representation extreme, so the equivalence still holds for representation
values); `new n` is `Some` exactly when `in_range n`; and a successful
`new n` stores `n` itself. -/
theorem claim_C3 (c : Config) (n : Int) (hn : c.rep.inRepB n = true) :
    (c.in_range n = true ↔ c.MIN_VALUE ≤ n ∧ n ≤ c.MAX_VALUE) ∧
    ((c.new n).isSome = c.in_range n) ∧
    (∀ v, c.new n = some v → v = n) := by
  refine ⟨c.in_range_iff n hn, ?_, ?_⟩
  · unfold Config.new
    split <;> simp_all
  · intro v h
    exact ((c.new_some n v).mp h).2

/-- Witness for C3 at the scenario-A configuration and `n = 1`. -/
theorem claim_C3_witness :
    cfgA.rep.inRepB 1 = true ∧
      ((cfgA.in_range 1 = true ↔ cfgA.MIN_VALUE ≤ 1 ∧ 1 ≤ cfgA.MAX_VALUE) ∧
        ((cfgA.new 1).isSome = cfgA.in_range 1) ∧
        (∀ v, cfgA.new 1 = some v → v = 1)) :=
  ⟨by decide, claim_C3 cfgA 1 (by decide)⟩

/-- Claim C4: `new_saturating` clamps a value below `MIN_VALUE` to
`MIN_VALUE`, a value above `MAX_VALUE` to `MAX_VALUE`, and passes an
in-range value through unchanged; the source tests the low bound first and
the high bound second, which coincides with this case split because a valid
configuration has `MIN_VALUE ≤ MAX_VALUE`. -/
theorem claim_C4 (c : Config) (hb : c.boundsOkB = true) (n : Int)
    (hn : c.rep.inRepB n = true) :
    (n < c.MIN_VALUE → c.new_saturating n = c.MIN_VALUE) ∧
    (c.MAX_VALUE < n → c.new_saturating n = c.MAX_VALUE) ∧
    (c.MIN_VALUE ≤ n → n ≤ c.MAX_VALUE → c.new_saturating n = n) := by
  obtain ⟨hmin, hmax, hle⟩ := c.boundsOk_iff.mp hb
  refine ⟨?_, ?_, ?_⟩
  · intro h
    have hlc := c.lowCheck_false_of n hn h
    unfold Config.new_saturating
    rw [hlc]
    rfl
  · intro h
    have hlc : c.lowCheck n = true := (c.lowCheck_iff n hn).mpr (by omega)
    have hhc := c.highCheck_false_of n hn h
    unfold Config.new_saturating
    rw [hlc, hhc]
    rfl
  · intro h1 h2
    have hlc : c.lowCheck n = true := (c.lowCheck_iff n hn).mpr h1
    have hhc : c.highCheck n = true := (c.highCheck_iff n hn).mpr h2
    unfold Config.new_saturating
    rw [hlc, hhc]
    rfl

/-- Witness for C4 at the scenario-A configuration and `n = -5`. -/
theorem claim_C4_witness :
    cfgA.boundsOkB = true ∧ cfgA.rep.inRepB (-5) = true ∧
      ((-5 < cfgA.MIN_VALUE → cfgA.new_saturating (-5) = cfgA.MIN_VALUE) ∧
        (cfgA.MAX_VALUE < -5 → cfgA.new_saturating (-5) = cfgA.MAX_VALUE) ∧
        (cfgA.MIN_VALUE ≤ -5 → -5 ≤ cfgA.MAX_VALUE → cfgA.new_saturating (-5) = -5)) :=
  ⟨by decide, by decide, claim_C4 cfgA (by decide) (-5) (by decide)⟩

/-- Claim C2: every operation of the generated type except `new_unchecked` —
`new`, `new_saturating`, `new_wrapping`, the default operators (and their
compound assignments, which are defined as the operator followed by
reassignment and are embedded by the same functions), the `checked_*` family
on its `Some` path, the `saturating_*` family, `abs`, `pow`, `div_euclid`
and `rem_euclid` — only ever produces values `v` with
`MIN_VALUE ≤ v ≤ MAX_VALUE`; panics and `None` results produce nothing. -/
theorem claim_C2 (c : Config) (hb : c.boundsOkB = true) (a b n : Int) (e : Nat)
    (ha : c.rep.inRepB a = true) (hb2 : c.rep.inRepB b = true)
    (hn : c.rep.inRepB n = true) :
    (∀ v, c.new n = some v → c.inBounds v) ∧
    c.inBounds (c.new_saturating n) ∧
    (∀ v, c.new_wrapping n = some v → c.inBounds v) ∧
    (∀ v, c.checked_add a b = some v → c.inBounds v) ∧
    (∀ v, c.checked_sub a b = some v → c.inBounds v) ∧
    (∀ v, c.checked_mul a b = some v → c.inBounds v) ∧
    (∀ v, c.checked_div a b = some v → c.inBounds v) ∧
    (∀ v, c.checked_div_euclid a b = some v → c.inBounds v) ∧
    (∀ v, c.checked_rem a b = some v → c.inBounds v) ∧
    (∀ v, c.checked_rem_euclid a b = some v → c.inBounds v) ∧
    (∀ v, c.checked_neg a = some v → c.inBounds v) ∧
    (∀ v, c.checked_abs a = some v → c.inBounds v) ∧
    (∀ v, c.checked_pow a e = some v → c.inBounds v) ∧
    c.inBounds (c.saturating_add a b) ∧
    c.inBounds (c.saturating_sub a b) ∧
    c.inBounds (c.saturating_mul a b) ∧
    c.inBounds (c.saturating_neg a) ∧
    c.inBounds (c.saturating_pow a e) := by
  refine ⟨?_, ?_, ?_, ?_, ?_, ?_, ?_, ?_, ?_, ?_, ?_, ?_, ?_, ?_, ?_, ?_, ?_, ?_⟩
  · intro v h
    obtain ⟨h1, h2⟩ := (c.new_some n v).mp h
    subst h2
    exact c.inBounds_of_in_range v hn h1
  · exact c.new_saturating_inB hb n hn
  · exact c.wrap_some_inB hb n
  · exact c.bind_new_inB _ (c.rep.checked_add_inRep a b)
  · exact c.bind_new_inB _ (c.rep.checked_sub_inRep a b)
  · exact c.bind_new_inB _ (c.rep.checked_mul_inRep a b)
  · exact c.bind_new_inB _ (c.rep.checked_div_inRep a b)
  · exact c.bind_new_inB _ (c.rep.checked_div_euclid_inRep a b)
  · exact c.bind_new_inB _ (c.rep.checked_rem_inRep a b)
  · exact c.bind_new_inB _ (c.rep.checked_rem_euclid_inRep a b)
  · exact c.bind_new_inB _ (c.rep.checked_neg_inRep a)
  · exact c.bind_new_inB _ (c.rep.checked_abs_inRep a)
  · exact c.bind_new_inB _ (c.rep.checked_pow_inRep a e)
  · exact c.new_saturating_inB hb _ (c.rep.clamp_inRep _)
  · exact c.new_saturating_inB hb _ (c.rep.clamp_inRep _)
  · exact c.new_saturating_inB hb _ (c.rep.clamp_inRep _)
  · exact c.new_saturating_inB hb _ (c.rep.clamp_inRep _)
  · exact c.new_saturating_inB hb _ (c.rep.clamp_inRep _)

/-- Witness for C2 at the scenario-A configuration with operands `1`, `-2`,
`-5` and exponent `3`. -/
theorem claim_C2_witness :
    cfgA.boundsOkB = true ∧ cfgA.rep.inRepB 1 = true ∧ cfgA.rep.inRepB (-2) = true ∧
      cfgA.rep.inRepB (-5) = true ∧
      ((∀ v, cfgA.new (-5) = some v → cfgA.inBounds v) ∧
        cfgA.inBounds (cfgA.new_saturating (-5)) ∧
        (∀ v, cfgA.new_wrapping (-5) = some v → cfgA.inBounds v) ∧
        (∀ v, cfgA.checked_add 1 (-2) = some v → cfgA.inBounds v) ∧
        (∀ v, cfgA.checked_sub 1 (-2) = some v → cfgA.inBounds v) ∧
        (∀ v, cfgA.checked_mul 1 (-2) = some v → cfgA.inBounds v) ∧
        (∀ v, cfgA.checked_div 1 (-2) = some v → cfgA.inBounds v) ∧
        (∀ v, cfgA.checked_div_euclid 1 (-2) = some v → cfgA.inBounds v) ∧
        (∀ v, cfgA.checked_rem 1 (-2) = some v → cfgA.inBounds v) ∧
        (∀ v, cfgA.checked_rem_euclid 1 (-2) = some v → cfgA.inBounds v) ∧
        (∀ v, cfgA.checked_neg 1 = some v → cfgA.inBounds v) ∧
        (∀ v, cfgA.checked_abs 1 = some v → cfgA.inBounds v) ∧
        (∀ v, cfgA.checked_pow 1 3 = some v → cfgA.inBounds v) ∧
        cfgA.inBounds (cfgA.saturating_add 1 (-2)) ∧
        cfgA.inBounds (cfgA.saturating_sub 1 (-2)) ∧
        cfgA.inBounds (cfgA.saturating_mul 1 (-2)) ∧
        cfgA.inBounds (cfgA.saturating_neg 1) ∧
        cfgA.inBounds (cfgA.saturating_pow 1 3)) :=
  ⟨by decide, by decide, by decide, by decide,
    claim_C2 cfgA (by decide) 1 (-2) (-5) 3 (by decide) (by decide) (by decide)⟩

/-- Claim C1, counterexample: on the valid configuration `u8` with range
`0..=200` (`RANGE = 201` is representable and the bounds are ordered), the
in-range input `60` does not produce the claimed centered-modulo value `60`:
the intermediate sum `60 + (RANGE - MIN_VALUE mod RANGE) = 261` overflows
`u8`, so `new_wrapping` panics (`none`) instead of returning a value. -/
theorem claim_C1_counterexample :
    cfgW.boundsOkB = true ∧ cfgW.rangeOkB = true ∧ cfgW.rep.inRepB 60 = true ∧
      cfgW.in_range 60 = true ∧
      (60 - cfgW.MIN_VALUE) % cfgW.RANGE + cfgW.MIN_VALUE = 60 ∧
      cfgW.new_wrapping 60 = none := by decide

/-- Claim C1 (amended): for every valid bound configuration and every
representation value `n` such that the intermediate sum
`n + (RANGE - MIN_VALUE.rem_euclid(RANGE))` stays representable,
`new_wrapping n` returns the centered modulo
`((n - MIN_VALUE) mod_euclid RANGE) + MIN_VALUE`, which lies in
`[MIN_VALUE, MAX_VALUE]`; in particular it is `n` itself for in-range `n`,
`MIN_VALUE` for `n = MAX_VALUE + 1` and `MAX_VALUE` for
`n = MIN_VALUE - 1`.  Without the representability side condition the
formula overflows instead (see the counterexample). -/
theorem claim_C1 (c : Config) (hb : c.boundsOkB = true) (hr : c.rangeOkB = true)
    (n : Int) (hn : c.rep.inRepB n = true)
    (hov : c.rep.inRepB (n + c.wrapOffset) = true) :
    c.new_wrapping n = some ((n - c.MIN_VALUE) % c.RANGE + c.MIN_VALUE) ∧
    c.inBounds ((n - c.MIN_VALUE) % c.RANGE + c.MIN_VALUE) ∧
    (c.MIN_VALUE ≤ n → n ≤ c.MAX_VALUE → c.new_wrapping n = some n) ∧
    (n = c.MAX_VALUE + 1 → c.new_wrapping n = some c.MIN_VALUE) ∧
    (n = c.MIN_VALUE - 1 → c.new_wrapping n = some c.MAX_VALUE) := by
  have heval := c.wrap_eval hb hr n hn
  rw [if_pos hov] at heval
  have hR : c.RANGE = c.MAX_VALUE - c.MIN_VALUE + 1 := rfl
  refine ⟨heval, c.wrap_formula_inB hb n, ?_, ?_, ?_⟩
  · intro h1 h2
    have hlt : (n - c.MIN_VALUE) % c.RANGE = n - c.MIN_VALUE :=
      Int.emod_eq_of_lt (by omega) (by omega)
    rw [heval, hlt]
    congr 1
    ring
  · intro h
    have harg : n - c.MIN_VALUE = c.RANGE := by omega
    rw [heval, harg, Int.emod_self]
    congr 1
    omega
  · intro h
    have harg : n - c.MIN_VALUE = c.RANGE - 1 + c.RANGE * (-1) := by omega
    have hRpos : 0 < c.RANGE := c.range_pos hb
    rw [heval, harg, Int.add_mul_emod_self_left,
      Int.emod_eq_of_lt (by omega) (by omega)]
    congr 1
    omega

/-- Witness for the amended C1 at the scenario-A configuration and
`n = -4 = MIN_VALUE - 1`. -/
theorem claim_C1_witness :
    cfgA.boundsOkB = true ∧ cfgA.rangeOkB = true ∧ cfgA.rep.inRepB (-4) = true ∧
      cfgA.rep.inRepB (-4 + cfgA.wrapOffset) = true ∧
      (cfgA.new_wrapping (-4) = some ((-4 - cfgA.MIN_VALUE) % cfgA.RANGE + cfgA.MIN_VALUE) ∧
        cfgA.inBounds ((-4 - cfgA.MIN_VALUE) % cfgA.RANGE + cfgA.MIN_VALUE) ∧
        (cfgA.MIN_VALUE ≤ -4 → -4 ≤ cfgA.MAX_VALUE → cfgA.new_wrapping (-4) = some (-4)) ∧
        (-4 = cfgA.MAX_VALUE + 1 → cfgA.new_wrapping (-4) = some cfgA.MIN_VALUE) ∧
        (-4 = cfgA.MIN_VALUE - 1 → cfgA.new_wrapping (-4) = some cfgA.MAX_VALUE)) :=
  ⟨by decide, by decide, by decide, by decide,
    claim_C1 cfgA (by decide) (by decide) (-4) (by decide) (by decide)⟩

/-- Claim C10: the `new_wrapping` formula is evaluated entirely in the
representation; whenever the intermediate sum
`n + (RANGE - MIN_VALUE.rem_euclid(RANGE))` is representable the result is
the centered modulo `((n - MIN_VALUE) mod_euclid RANGE) + MIN_VALUE`, and
whenever it is not, the primitive addition inside the formula overflows and
no value is produced. -/
theorem claim_C10 (c : Config) (hb : c.boundsOkB = true) (hr : c.rangeOkB = true)
    (n : Int) (hn : c.rep.inRepB n = true) :
    (c.rep.inRepB (n + c.wrapOffset) = true →
      c.new_wrapping n = some ((n - c.MIN_VALUE) % c.RANGE + c.MIN_VALUE)) ∧
    (c.rep.inRepB (n + c.wrapOffset) = false → c.new_wrapping n = none) := by
  have heval := c.wrap_eval hb hr n hn
  constructor
  · intro h
    rw [heval, if_pos h]
  · intro h
    rw [heval, if_neg (by simp [h])]

/-- Witness for C10 at the scenario-B configuration and `n = 8`, one above
`MAX_VALUE`. -/
theorem claim_C10_witness :
    cfgB.boundsOkB = true ∧ cfgB.rangeOkB = true ∧ cfgB.rep.inRepB 8 = true ∧
      ((cfgB.rep.inRepB (8 + cfgB.wrapOffset) = true →
        cfgB.new_wrapping 8 = some ((8 - cfgB.MIN_VALUE) % cfgB.RANGE + cfgB.MIN_VALUE)) ∧
        (cfgB.rep.inRepB (8 + cfgB.wrapOffset) = false → cfgB.new_wrapping 8 = none)) :=
  ⟨by decide, by decide, by decide, claim_C10 cfgB (by decide) (by decide) 8 (by decide)⟩

/-- Claim C5, counterexample: in scenario B (`u16`, range `3..=7`) the
primitive subtraction `5 - 3` succeeds with `2`, but `2` is below
`MIN_VALUE = 3`, so `checked_sub` of the bounded value `5` and
right-hand side `3` returns `None` — not `Some` as the claim (following the
spec scenario) states. -/
theorem claim_C5_counterexample :
    cfgB.boundsOkB = true ∧ cfgB.in_range 5 = true ∧
      u16.checked_sub 5 3 = some 2 ∧ cfgB.in_range 2 = false ∧
      cfgB.checked_sub 5 3 = none := by decide

/-- Claim C5 (amended): every `checked_<op>` returns `Some v` exactly when
the primitive checked operation succeeds with the value `v` and `v` passes
`in_range`; primitive failure and a primitive-successful but out-of-range
result are both plain `None`.  In scenario B both subtraction examples
collapse to `None`: `5 - 3` and `3 - 1` each give the primitive result `2`,
which is below `MIN_VALUE = 3` (the claim asserted `Some` for the first). -/
theorem claim_C5 (c : Config) (a b : Int) (e : Nat) :
    (∀ v, c.checked_add a b = some v ↔
      c.rep.checked_add a b = some v ∧ c.in_range v = true) ∧
    (∀ v, c.checked_sub a b = some v ↔
      c.rep.checked_sub a b = some v ∧ c.in_range v = true) ∧
    (∀ v, c.checked_mul a b = some v ↔
      c.rep.checked_mul a b = some v ∧ c.in_range v = true) ∧
    (∀ v, c.checked_div a b = some v ↔
      c.rep.checked_div a b = some v ∧ c.in_range v = true) ∧
    (∀ v, c.checked_div_euclid a b = some v ↔
      c.rep.checked_div_euclid a b = some v ∧ c.in_range v = true) ∧
    (∀ v, c.checked_rem a b = some v ↔
      c.rep.checked_rem a b = some v ∧ c.in_range v = true) ∧
    (∀ v, c.checked_rem_euclid a b = some v ↔
      c.rep.checked_rem_euclid a b = some v ∧ c.in_range v = true) ∧
    (∀ v, c.checked_neg a = some v ↔
      c.rep.checked_neg a = some v ∧ c.in_range v = true) ∧
    (∀ v, c.checked_abs a = some v ↔
      c.rep.checked_abs a = some v ∧ c.in_range v = true) ∧
    (∀ v, c.checked_pow a e = some v ↔
      c.rep.checked_pow a e = some v ∧ c.in_range v = true) ∧
    u16.checked_sub 5 3 = some 2 ∧ cfgB.checked_sub 5 3 = none ∧
    u16.checked_sub 3 1 = some 2 ∧ cfgB.checked_sub 3 1 = none :=
  ⟨fun v => c.bind_new_some _ v, fun v => c.bind_new_some _ v,
    fun v => c.bind_new_some _ v, fun v => c.bind_new_some _ v,
    fun v => c.bind_new_some _ v, fun v => c.bind_new_some _ v,
    fun v => c.bind_new_some _ v, fun v => c.bind_new_some _ v,
    fun v => c.bind_new_some _ v, fun v => c.bind_new_some _ v,
    by decide, by decide, by decide, by decide⟩

/-- Claim C6, counterexample: dividing by zero in a bound expression is not
surfaced as a position-aware error result: `eval_expr` reaches the native
division `left / right`, which panics, aborting macro expansion without
producing a `syn::Error`. -/
theorem claim_C6_counterexample :
    eval_expr (.div (.lit 7) (.lit 0)) =
      .error (.panicked ("attempt to divide by zero")) ∧
    isSpannedErr (eval_expr (.div (.lit 7) (.lit 0))) = false := by decide

/-- Claim C6 (amended): the evaluator satisfies the literal cases
`5 ↦ 5`, `-3 ↦ -3`, `6+2 ↦ 8`, `3*4-1 ↦ 11`; `7/0` fails with a
division-by-zero panic that aborts generation (not a returned error value);
and unsupported syntax such as `x+1` fails with a descriptive,
position-aware error result attached to the offending construct.  No input
is silently coerced. -/
theorem claim_C6 :
    eval_expr (.lit 5) = .ok 5 ∧
    eval_expr (.neg (.lit 3)) = .ok (-3) ∧
    eval_expr (.add (.lit 6) (.lit 2)) = .ok 8 ∧
    eval_expr (.sub (.mul (.lit 3) (.lit 4)) (.lit 1)) = .ok 11 ∧
    eval_expr (.div (.lit 7) (.lit 0)) =
      .error (.panicked ("attempt to divide by zero")) ∧
    eval_expr (.add (.other ("x")) (.lit 1)) =
      .error (.spanned ("expected simple expression") (.other ("x"))) := by decide

/-- Claim C7: the struct path does normalize a half-open upper bound before
evaluation, but by pasting the tokens `- 1` after the unparenthesized upper
expression rather than wrapping it as `(b) - 1`; for an upper expression
whose top-level operator binds looser than subtraction the two differ.  At
the failing input `0..5^3` the emitted `MAX_VALUE` tokens `5 ^ 3 - 1`
evaluate to `7` while the claimed `(5^3) - 1` is `5`, so the generated type
accepts values outside the declared range.  For upper expressions headed by
additive or tighter operators the paste coincides with the claimed wrap, as
in scenario A where `2` becomes `2 - 1 = 1`, giving `MIN_VALUE = -3`,
`MAX_VALUE = 1`, `RANGE = 5`, `new 1 = Some`, `new 2 = None`. -/
theorem claim_C7 :
    eval_expr (structUpper (.bitXor (.lit 5) (.lit 3)) .halfOpen) = .ok 7 ∧
    eval_expr (specWrapMinusOne (.bitXor (.lit 5) (.lit 3))) = .ok 5 ∧
    structUpper (.lit 2) .halfOpen = .sub (.lit 2) (.lit 1) ∧
    eval_expr (structUpper (.lit 2) .halfOpen) = .ok 1 ∧
    cfgA.MIN_VALUE = -3 ∧ cfgA.MAX_VALUE = 1 ∧ cfgA.RANGE = 5 ∧
    cfgA.new 1 = some 1 ∧ cfgA.new 2 = none := by decide

/-- Claim C8, counterexample: `checked_neg` is generated for unsigned
representations as well — the `neg` row of `CHECKED_OPERATORS` is marked
`NoSaturating`, not `None`, so only its saturating form is suppressed. -/
theorem claim_C8_counterexample :
    ("checked_neg") ∈ generatedCheckedMethods true := by decide

/-- Claim C8 (amended): for unsigned representations the `Neg` operator,
`saturating_neg`, `abs`, `checked_abs` and `saturating_abs` are all
excluded, but `checked_neg` is generated (the primitive `u*::checked_neg`
exists and returns `None` for every nonzero argument); for signed
representations all of these exist. -/
theorem claim_C8 :
    ("Neg") ∉ generatedOpTraits true ∧
    ("saturating_neg") ∉ generatedSaturatingMethods true ∧
    ("abs") ∉ generatedPlainMethods true ∧
    ("checked_abs") ∉ generatedCheckedMethods true ∧
    ("saturating_abs") ∉ generatedSaturatingMethods true ∧
    ("checked_neg") ∈ generatedCheckedMethods true ∧
    ("Neg") ∈ generatedOpTraits false ∧
    ("checked_neg") ∈ generatedCheckedMethods false ∧
    ("saturating_neg") ∈ generatedSaturatingMethods false ∧
    ("abs") ∈ generatedPlainMethods false ∧
    ("checked_abs") ∈ generatedCheckedMethods false ∧
    ("saturating_abs") ∈ generatedSaturatingMethods false := by decide

/-- Claim C9: the variant-naming function sends `-8` to `N8`, `0` to `Z0`
and `7` to `P7`; and for every closed enum range the emitted variant list
is, after Rust discriminant assignment (first variant explicitly
`= MIN_VALUE`, each later one implicitly one greater), exactly one variant
per integer of the range in ascending order with its own value — spelled
out for `-8..=7` as the 16 variants `N8 = -8` through `P7 = 7`. -/
theorem claim_C9 :
    enum_variant (-8) = ("N8") ∧ enum_variant 0 = ("Z0") ∧ enum_variant 7 = ("P7") ∧
    (∀ lo hi : Int,
      enumVariantList lo hi = (enumRange lo hi).map fun i => (enum_variant i, i)) ∧
    enumVariantList (-8) 7 =
      [(("N8"), -8), (("N7"), -7), (("N6"), -6), (("N5"), -5), (("N4"), -4),
        (("N3"), -3), (("N2"), -2), (("N1"), -1), (("Z0"), 0), (("P1"), 1),
        (("P2"), 2), (("P3"), 3), (("P4"), 4), (("P5"), 5), (("P6"), 6),
        (("P7"), 7)] :=
  ⟨by decide, by decide, by decide, enumVariantList_eq, by decide⟩
